import Mathlib

/-
Verification of the rssr feed reader.

The repository is a Tauri application: the TypeScript front end is present
(src/src), while the Rust core (importer, sync engine, LLM pipeline) is only
reachable through its `invoke` declarations in src/src/services/tauriApi.ts.
Front-end functions (richText.ts, ReaderPage.tsx, AiSettingsPage.tsx) are
embedded directly from their TypeScript source; the Rust core components are
modelled from the specification, as marked on each definition.

Strings are embedded as `List Char` where character-level reasoning is needed
(richText.ts) and as `String` elsewhere.  External collaborators that are not
part of the repository (DOMPurify's `sanitize`, the DOM text renderer behind
`toPlainText`, SHA hashing, URL canonicalization internals, the HTTP client)
are passed as explicit function parameters, so every theorem quantifies over
their behaviour unless a property of the collaborator is material to the
claim.
-/

namespace Rssr

namespace RichText

/-- The replacement string of `.replace(/&/g, "&amp;")`. -/
def ampEsc : List Char := ['&', 'a', 'm', 'p', ';']

/-- The replacement string of `.replace(/</g, "&lt;")`. -/
def ltEsc : List Char := ['&', 'l', 't', ';']

/-- The replacement string of `.replace(/>/g, "&gt;")`. -/
def gtEsc : List Char := ['&', 'g', 't', ';']

/-- The replacement string of `.replace(/\n/g, "<br/>")`. -/
def brTag : List Char := ['<', 'b', 'r', '/', '>']

/-- JavaScript `String.prototype.replace(/c/g, rep)` for a single-character
pattern `c`: every occurrence of `c` is replaced by `rep`
(src/src/utils/richText.ts, lines 19-22). -/
def replaceAll (c : Char) (rep : List Char) : List Char → List Char
  | [] => []
  | d :: rest => (if d = c then rep else [d]) ++ replaceAll c rep rest

/-- JavaScript `String.prototype.trim` on the ASCII whitespace relevant to
this code base: drop whitespace from both ends. -/
def trimChars (l : List Char) : List Char :=
  ((l.dropWhile Char.isWhitespace).reverse.dropWhile Char.isWhitespace).reverse

/-- Helper for `looksLikeHtml`: whether the regex `\/?[a-z][\s\S]*>` matches
at the start of the list, i.e. right after a consumed `<`. -/
def tagTail : List Char → Bool
  | '/' :: c :: rest => c.isAlpha && rest.contains '>'
  | c :: rest => c.isAlpha && rest.contains '>'
  | [] => false

/-- The test `/<\/?[a-z][\s\S]*>/i.test(value)` of `looksLikeHtml`
(src/src/utils/richText.ts, lines 35-37): some `<`, an optional `/`, an ASCII
letter, then a later `>`. -/
def looksLikeHtml : List Char → Bool
  | [] => false
  | '<' :: rest => tagTail rest || looksLikeHtml rest
  | _ :: rest => looksLikeHtml rest

/-- The escape chain of `toSafeHtml`'s non-HTML branch, in source order:
`&` first, then `<`, then `>`, then newlines to `<br/>`
(src/src/utils/richText.ts, lines 18-22). -/
def escapeText (l : List Char) : List Char :=
  replaceAll '\n' brTag
    (replaceAll '>' gtEsc
      (replaceAll '<' ltEsc
        (replaceAll '&' ampEsc l)))

/-- `toSafeHtml` (src/src/utils/richText.ts, lines 3-24).  `none` models a
`null`/`undefined` input; DOMPurify's `sanitize` is an external collaborator
passed as a parameter.  The JavaScript guard `!input` is also true for the
empty string, hence the first branch on `s = []`. -/
def toSafeHtml (sanitize : List Char → List Char) : Option (List Char) → List Char
  | none => []
  | some s =>
      if s = [] then []
      else
        let text := trimChars s
        if text = [] then []
        else if looksLikeHtml text then sanitize text
        else sanitize (escapeText text)

/-- Whether `toSafeHtml`'s input is null, undefined, or whitespace-only. -/
def isBlankInput : Option (List Char) → Bool
  | none => true
  | some s => trimChars s = []

/-- Character-wise description of the escape chain: each source character is
escaped independently, exactly once. -/
def escChar (c : Char) : List Char :=
  if c = '&' then ampEsc
  else if c = '<' then ltEsc
  else if c = '>' then gtEsc
  else if c = '\n' then brTag
  else [c]

lemma replaceAll_append (c : Char) (rep a b : List Char) :
    replaceAll c rep (a ++ b) = replaceAll c rep a ++ replaceAll c rep b := by
  induction a with
  | nil => rfl
  | cons d rest ih => simp [replaceAll, ih]

lemma escHead (d : Char) :
    replaceAll '\n' brTag
        (replaceAll '>' gtEsc
          (replaceAll '<' ltEsc (if d = '&' then ampEsc else [d]))) = escChar d := by
  by_cases h1 : d = '&'
  · subst h1; decide
  by_cases h2 : d = '<'
  · subst h2; simp [h1]; decide
  by_cases h3 : d = '>'
  · subst h3; simp [h1, h2]; decide
  by_cases h4 : d = '\n'
  · subst h4; simp [h1, h2, h3]; decide
  simp [replaceAll, escChar, h1, h2, h3, h4]

lemma escapeText_cons (d : Char) (l : List Char) :
    escapeText (d :: l) = escChar d ++ escapeText l := by
  show replaceAll '\n' brTag
      (replaceAll '>' gtEsc
        (replaceAll '<' ltEsc
          ((if d = '&' then ampEsc else [d]) ++ replaceAll '&' ampEsc l))) = _
  rw [replaceAll_append, replaceAll_append, replaceAll_append, escHead]
  rfl

lemma escapeText_eq_flatMap (l : List Char) : escapeText l = l.flatMap escChar := by
  induction l with
  | nil => rfl
  | cons d rest ih => rw [escapeText_cons, ih, List.flatMap_cons]

end RichText

namespace Importer

/-- Modelled from the spec: the Rust Importer's ImportCandidate (spec section 3);
the importer itself is not under src/, only its invoke declaration
`importSources` and response type `ImportExecuteResponse`
(src/src/services/tauriApi.ts, lines 48-51 and 121-123) are. -/
structure ImportCandidate where
  title : String
  feed_url : String
deriving DecidableEq

/-- The `import_sources` response shape (src/src/services/tauriApi.ts,
lines 48-51). -/
structure ImportExecuteResponse where
  imported_count : Nat
  duplicate_count : Nat
deriving DecidableEq

/-- Modelled from the spec: the stored Sources visible to the importer,
identified by canonicalized feed URL (spec section 3, Source). -/
structure ImportState where
  sources : List String
deriving DecidableEq

/-- Modelled from the spec: the Importer's `execute` (spec section 4.6).
Parsing a supported format is deterministic (sections 4.2 and 8), so the
content being imported is represented by its parsed candidate list; `canon` is the
Normalizer's canonicalize.  Duplicate detection is keyed on the canonical
feed URL against existing Sources; non-duplicates are converted into
Sources. -/
def executeImport (canon : String → String) :
    List ImportCandidate → ImportState → ImportExecuteResponse × ImportState
  | [], st => (⟨0, 0⟩, st)
  | c :: rest, st =>
      if canon c.feed_url ∈ st.sources then
        let p := executeImport canon rest st
        (⟨p.1.imported_count, p.1.duplicate_count + 1⟩, p.2)
      else
        let p := executeImport canon rest ⟨canon c.feed_url :: st.sources⟩
        (⟨p.1.imported_count + 1, p.1.duplicate_count⟩, p.2)

lemma executeImport_mono (canon : String → String) (l : List ImportCandidate)
    (st : ImportState) (u : String) (hu : u ∈ st.sources) :
    u ∈ (executeImport canon l st).2.sources := by
  induction l generalizing st with
  | nil => exact hu
  | cons c rest ih =>
      by_cases h : canon c.feed_url ∈ st.sources
      · simpa [executeImport, h] using ih st hu
      · simpa [executeImport, h] using ih ⟨canon c.feed_url :: st.sources⟩ (by simp [hu])

lemma executeImport_mem (canon : String → String) (l : List ImportCandidate)
    (st : ImportState) (c : ImportCandidate) (hc : c ∈ l) :
    canon c.feed_url ∈ (executeImport canon l st).2.sources := by
  induction l generalizing st with
  | nil => cases hc
  | cons d rest ih =>
      by_cases h : canon d.feed_url ∈ st.sources
      · rcases List.mem_cons.mp hc with hcd | hcrest
        · subst hcd
          simpa [executeImport, h] using executeImport_mono canon rest st _ h
        · simpa [executeImport, h] using ih st hcrest
      · rcases List.mem_cons.mp hc with hcd | hcrest
        · subst hcd
          simpa [executeImport, h] using
            executeImport_mono canon rest ⟨canon c.feed_url :: st.sources⟩ _ (by simp)
        · simpa [executeImport, h] using ih ⟨canon d.feed_url :: st.sources⟩ hcrest

lemma executeImport_all_dup (canon : String → String) (l : List ImportCandidate)
    (st : ImportState) (h : ∀ c ∈ l, canon c.feed_url ∈ st.sources) :
    (executeImport canon l st).1 = ⟨0, l.length⟩ ∧ (executeImport canon l st).2 = st := by
  induction l generalizing st with
  | nil => exact ⟨rfl, rfl⟩
  | cons c rest ih =>
      have hc : canon c.feed_url ∈ st.sources := h c (by simp)
      have hrest := ih st (fun d hd => h d (by simp [hd]))
      simp [executeImport, hc, hrest.1, hrest.2]

lemma executeImport_all_fresh (canon : String → String) (l : List ImportCandidate)
    (st : ImportState) (hfresh : ∀ c ∈ l, canon c.feed_url ∉ st.sources)
    (hnodup : (l.map (fun c => canon c.feed_url)).Nodup) :
    (executeImport canon l st).1 = ⟨l.length, 0⟩ := by
  induction l generalizing st with
  | nil => rfl
  | cons c rest ih =>
      have hc : canon c.feed_url ∉ st.sources := hfresh c (by simp)
      have hnd : (∀ x ∈ rest, ¬ canon x.feed_url = canon c.feed_url)
          ∧ (rest.map (fun c => canon c.feed_url)).Nodup := by
        simpa [List.nodup_cons] using hnodup
      have hrest := ih ⟨canon c.feed_url :: st.sources⟩
        (fun d hd => by
          simp only [List.mem_cons]
          push_neg
          exact ⟨hnd.1 d hd, hfresh d (by simp [hd])⟩)
        hnd.2
      simp [executeImport, hc, hrest]

end Importer

namespace Llm

/-- Modelled from the spec: the task kinds of the LLM cache key
(spec section 3, LlmCache entry); the Rust LLM pipeline is not under src/. -/
inductive TaskKind
  | summarize
  | translateTitle
deriving DecidableEq

/-- Modelled from the spec: the LlmCache key — entry identity, task kind,
content fingerprint of the input actually sent (spec section 3). -/
structure CacheKey where
  entry_id : Nat
  task : TaskKind
  fingerprint : String
deriving DecidableEq

/-- Modelled from the spec: the pipeline's observable state — the cache plus a
counter of outbound LLM requests (the counting instrument of spec
section 8). -/
structure PipelineState where
  cache : List (CacheKey × String)
  llm_calls : Nat
deriving DecidableEq

/-- The cache lookup for a key. -/
def lookupCache (cache : List (CacheKey × String)) (k : CacheKey) : Option String :=
  match cache.find? (fun p => p.1 = k) with
  | some p => some p.2
  | none => none

/-- Modelled from the spec: steps (2), (4) and (5) of the Content Pipeline
(spec section 4.8): check the cache for (entry, task, fingerprint) and return
the cached text on a hit with no network call; on a miss call the LLM Client
(one outbound request) and persist the result keyed by the fingerprint used.
`llm` is the LLM Client collaborator; the fingerprint of the exact text to be
sent (step 1) is computed by the caller, content fetching being external. -/
def runLlmTask (llm : CacheKey → String) (k : CacheKey) (st : PipelineState) :
    String × PipelineState :=
  match lookupCache st.cache k with
  | some v => (v, st)
  | none => (llm k, ⟨(k, llm k) :: st.cache, st.llm_calls + 1⟩)

/-- Modelled from the spec: `summarize_entry` on an entry whose current
content fingerprint is `fp` (spec sections 4.8 and 6). -/
def summarizeEntry (llm : CacheKey → String) (entry_id : Nat) (fp : String)
    (st : PipelineState) : String × PipelineState :=
  runLlmTask llm ⟨entry_id, TaskKind.summarize, fp⟩ st

lemma lookupCache_cons_self (cache : List (CacheKey × String)) (k : CacheKey)
    (v : String) : lookupCache ((k, v) :: cache) k = some v := by
  simp [lookupCache, List.find?]

end Llm

namespace Sync

/-- Modelled from the spec: fetch failure kinds (spec section 4.3); the Rust
Fetch Client and Source Sync Worker are not under src/, only the invoke
declaration `syncSource` and response type `SyncSourceResponse`
(src/src/services/tauriApi.ts, lines 75-79 and 133-135) are. -/
inductive FailureKind
  | network
  | http (status : Nat)
deriving DecidableEq

/-- Modelled from the spec: the FetchOutcome of the Fetch Client (spec
section 4.3) — Modified with body and new validators, NotModified, or
Failed with a kind.  `β` is the raw body type. -/
inductive FetchOutcome (β : Type)
  | modified (body : β) (validators : String)
  | notModified
  | failed (kind : FailureKind)
deriving DecidableEq

/-- The three sync statuses of the spec (sections 4.4 and 6). -/
inductive SyncStatus
  | updated
  | notModified
  | failed
deriving DecidableEq

/-- The `sync_source` response shape: {source_id, status, upserted_entries}
(spec section 6; src/src/services/tauriApi.ts, lines 75-79). -/
structure SyncSourceResponse where
  source_id : Nat
  status : SyncStatus
  upserted_entries : Nat
deriving DecidableEq

/-- Modelled from the spec: a stored Entry's fields relevant to the sync
merge (spec section 3, Entry). -/
structure StoredEntry where
  dedup_key : String
  link : String
  title : String
  summary : Option String
  content : Option String
  translated_title : Option String
  is_read : Bool
  is_starred : Bool
deriving DecidableEq

/-- Modelled from the spec: the fields a parsed feed entry contributes to a
sync merge (spec section 4.4). -/
structure IncomingEntry where
  dedup_key : String
  link : String
  title : String
  summary : Option String
  content : Option String
deriving DecidableEq

/-- Modelled from the spec: updating an existing stored entry from an
incoming one — mutable fields such as title, summary and content are
overwritten, while is_read and is_starred (and the asynchronously filled
translated_title) are never reset (spec sections 3 and 4.4). -/
def updateFromIncoming (e : StoredEntry) (inc : IncomingEntry) : StoredEntry :=
  { e with
    link := inc.link
    title := inc.title
    summary := inc.summary
    content := inc.content }

/-- Modelled from the spec: the upsert of one entry (spec section 4.4) —
insert if the dedup_key is unseen for the source, else update mutable
fields.  A freshly inserted entry starts unread and unstarred. -/
def upsertEntry (entries : List StoredEntry) (inc : IncomingEntry) : List StoredEntry :=
  if entries.any (fun e => e.dedup_key = inc.dedup_key) then
    entries.map (fun e => if e.dedup_key = inc.dedup_key then updateFromIncoming e inc else e)
  else
    entries ++ [⟨inc.dedup_key, inc.link, inc.title, inc.summary, inc.content, none, false, false⟩]

/-- Modelled from the spec: upsert each resulting entry of a parsed feed in
order (spec section 4.4). -/
def upsertAll (entries : List StoredEntry) (incs : List IncomingEntry) : List StoredEntry :=
  incs.foldl upsertEntry entries

/-- Modelled from the spec: the per-source state a sync attempt touches —
conditional-request validators, consecutive failure count, stored entries
(spec section 3, Source). -/
structure SourceState where
  id : Nat
  validators : String
  failure_count : Nat
  entries : List StoredEntry
deriving DecidableEq

/-- Modelled from the spec: the Source Sync Worker (spec section 4.4).  On
NotModified nothing is written; on Modified the body is parsed (`parse` is
the Feed Parser collaborator, `none` modelling a parse failure), entries are
upserted, new validators stored and failure_count reset; on a fetch or parse
failure the failure_count is incremented by one and the failure is surfaced
in the response status — the function is total, nothing is thrown past the
caller. -/
def syncWorker {β : Type} (parse : β → Option (List IncomingEntry))
    (outcome : FetchOutcome β) (src : SourceState) :
    SyncSourceResponse × SourceState :=
  match outcome with
  | .notModified => (⟨src.id, SyncStatus.notModified, 0⟩, src)
  | .failed _ =>
      (⟨src.id, SyncStatus.failed, 0⟩, { src with failure_count := src.failure_count + 1 })
  | .modified body vals =>
      match parse body with
      | none =>
          (⟨src.id, SyncStatus.failed, 0⟩, { src with failure_count := src.failure_count + 1 })
      | some incs =>
          (⟨src.id, SyncStatus.updated, incs.length⟩,
           { src with
              entries := upsertAll src.entries incs
              validators := vals
              failure_count := 0 })

/-- Modelled from the spec: the result of one HTTP attempt as seen by the
retry loop (spec section 4.3). -/
inductive AttemptResult (β : Type)
  | ok (body : β) (validators : String)
  | notModified304
  | httpStatus (status : Nat)
  | netFail
deriving DecidableEq

/-- Modelled from the spec: which attempt results are retried (spec
section 4.3): Network failures, HTTP 429 and 5xx; other HTTP statuses are
not. -/
def retryable {β : Type} : AttemptResult β → Bool
  | .netFail => true
  | .httpStatus s => s == 429 || (500 ≤ s && s ≤ 599)
  | _ => false

/-- Modelled from the spec: mapping a final attempt result to a
FetchOutcome (spec section 4.3). -/
def outcomeOf {β : Type} : AttemptResult β → FetchOutcome β
  | .ok b v => .modified b v
  | .notModified304 => .notModified
  | .httpStatus s => .failed (.http s)
  | .netFail => .failed .network

/-- Modelled from the spec: the Fetch Client's retry loop (spec section 4.3):
an initial attempt plus up to `retry_count` retries on retryable results;
`attempts i` is the server's response to the i-th attempt.  Backoff delays do
not affect the outcome value and are omitted. -/
def fetchWithRetry {β : Type} (attempts : Nat → AttemptResult β) (i : Nat) :
    Nat → FetchOutcome β
  | 0 => outcomeOf (attempts i)
  | fuel + 1 =>
      if retryable (attempts i) then fetchWithRetry attempts (i + 1) fuel
      else outcomeOf (attempts i)

/-- Modelled from the spec: one sync attempt on a source — fetch with
retries, then the worker merge (spec sections 4.3 and 4.4). -/
def syncAttempt {β : Type} (parse : β → Option (List IncomingEntry))
    (attempts : Nat → AttemptResult β) (retry_count : Nat) (src : SourceState) :
    SyncSourceResponse × SourceState :=
  syncWorker parse (fetchWithRetry attempts 0 retry_count) src

/-- Modelled from the spec: mark_entry_read (spec section 6), the
reader-facing mutation of is_read, keyed here by the entry's per-source
identity (its dedup_key); the Rust handler is not under src/, only its
invoke declaration `markEntryRead` (src/src/services/tauriApi.ts,
lines 129-131) is. -/
def markEntryRead (entries : List StoredEntry) (key : String) (is_read : Bool) :
    List StoredEntry :=
  entries.map (fun e => if e.dedup_key = key then { e with is_read := is_read } else e)

lemma upsertEntry_preserves (entries : List StoredEntry) (inc : IncomingEntry)
    (e : StoredEntry) (he : e ∈ entries) :
    ∃ e' ∈ upsertEntry entries inc,
      e'.dedup_key = e.dedup_key ∧ e'.is_read = e.is_read ∧ e'.is_starred = e.is_starred := by
  unfold upsertEntry
  by_cases h : entries.any (fun e => e.dedup_key = inc.dedup_key)
  · refine ⟨if e.dedup_key = inc.dedup_key then updateFromIncoming e inc else e, ?_, ?_⟩
    · simp only [if_pos h]
      exact List.mem_map_of_mem _ he
    · by_cases hk : e.dedup_key = inc.dedup_key <;>
        simp [hk, updateFromIncoming]
  · refine ⟨e, ?_, rfl, rfl, rfl⟩
    rw [if_neg h]
    exact List.mem_append_left _ he

lemma upsertAll_preserves (incs : List IncomingEntry) (entries : List StoredEntry)
    (e : StoredEntry) (he : e ∈ entries) :
    ∃ e' ∈ upsertAll entries incs,
      e'.dedup_key = e.dedup_key ∧ e'.is_read = e.is_read ∧ e'.is_starred = e.is_starred := by
  induction incs generalizing entries e with
  | nil => exact ⟨e, he, rfl, rfl, rfl⟩
  | cons inc rest ih =>
      obtain ⟨e', he', hk, hr, hs⟩ := upsertEntry_preserves entries inc e he
      obtain ⟨e'', he'', hk', hr', hs'⟩ := ih (upsertEntry entries inc) e' he'
      exact ⟨e'', he'', hk'.trans hk, hr'.trans hr, hs'.trans hs⟩

end Sync

namespace Normalizer

/-- Modelled from the spec: a published timestamp carrying its day and the
seconds within the day, so that truncation to day is expressible (spec
section 4.1); the Rust Normalizer is not under src/. -/
structure Timestamp where
  day : Nat
  secs_of_day : Nat
deriving DecidableEq

/-- Modelled from the spec: a parsed feed entry as produced by the Feed
Parser (spec section 4.2): optional guid, optional link, title, optional
published timestamp. -/
structure ParsedEntry where
  guid : Option String
  link : Option String
  title : String
  published_at : Option Timestamp
deriving DecidableEq

/-- Modelled from the spec: the input of dedupKey's last-resort hash — the
title plus the published date truncated to day (spec section 4.1). -/
def hashInput (e : ParsedEntry) : String × Option Nat :=
  (e.title, e.published_at.map Timestamp.day)

/-- Modelled from the spec: dedupKey (spec section 4.1): (a) the
feed-supplied guid when non-empty, (b) else the canonicalized link when a
link is present, (c) else a SHA-based hash of title plus published date
truncated to day.  `canon` is canonicalize and `sha` the SHA hash, both
collaborators of this model. -/
def dedupKey (canon : String → String) (sha : String × Option Nat → String)
    (e : ParsedEntry) : String :=
  if e.guid.getD "" ≠ "" then e.guid.getD ""
  else
    match e.link with
    | some l => canon l
    | none => sha (hashInput e)

end Normalizer

namespace Settings

/-- SyncSettings as exchanged with save_sync_settings (spec section 3;
fields as used by src/src/pages/AiSettingsPage.tsx, lines 26-32).  Fields
are integers so that non-positive inputs are representable. -/
structure SyncSettings where
  interval_secs : Int
  max_concurrency : Int
  batch_limit : Int
  timeout_secs : Int
  retry_count : Int
deriving DecidableEq

/-- Modelled from the spec: the validation/normalization of
save_sync_settings (spec sections 3, 6 and 7) — every field must be a
positive integer and non-positive values are clamped; the `normalized
SyncSettings` return shape of section 6 indicates clamping rather than
rejection.  The Rust handler is not under src/, only its caller `onSaveSync`
(src/src/pages/AiSettingsPage.tsx, lines 100-116) is. -/
def normalizeSyncSettings (s : SyncSettings) : SyncSettings :=
  ⟨max 1 s.interval_secs, max 1 s.max_concurrency, max 1 s.batch_limit,
   max 1 s.timeout_secs, max 1 s.retry_count⟩

/-- Modelled from the spec: save_sync_settings returns the normalized
settings and persists exactly that normalized value (spec section 6). -/
def saveSyncSettings (s : SyncSettings) : SyncSettings × Option SyncSettings :=
  (normalizeSyncSettings s, some (normalizeSyncSettings s))

end Settings

namespace Scheduler

/-- Modelled from the spec: the observable dispatch state of one scheduler
batch (spec sections 4.5 and 5): sources not yet dispatched, workers with an
in-flight fetch, completed workers.  The Rust Sync Scheduler is not under
src/. -/
structure BatchState where
  pending : Nat
  in_flight : Nat
  completed : Nat
deriving DecidableEq

/-- Modelled from the spec: scheduler transitions (spec section 4.5): a
worker is dispatched only while fewer than max_concurrency are in flight,
and a completion retires one in-flight worker. -/
inductive SchedStep (maxC : Nat) : BatchState → BatchState → Prop
  | dispatch (p f d : Nat) (hp : 0 < p) (hf : f < maxC) :
      SchedStep maxC ⟨p, f, d⟩ ⟨p - 1, f + 1, d⟩
  | complete (p f d : Nat) (hf : 0 < f) :
      SchedStep maxC ⟨p, f, d⟩ ⟨p, f - 1, d + 1⟩

/-- Modelled from the spec: the states a batch over `n` sources can reach
from its initial state (spec section 4.5). -/
inductive Reachable (maxC n : Nat) : BatchState → Prop
  | init : Reachable maxC n ⟨n, 0, 0⟩
  | step {s t : BatchState} : Reachable maxC n s → SchedStep maxC s t → Reachable maxC n t

end Scheduler

namespace Reader

/-- The `original` binding of `resolveDisplayTitles`
(src/src/pages/ReaderPage.tsx, line 29): `toPlainText(title) || "Untitled"`.
The DOM-backed `toPlainText` is an external collaborator passed as
`plainText`; `none` models `null`/`undefined`. -/
def displayOriginal (plainText : Option String → String) (title : Option String) : String :=
  if plainText title = "" then "Untitled" else plainText title

/-- `resolveDisplayTitles` (src/src/pages/ReaderPage.tsx, lines 25-35).
The result pair is `(primary, secondary)`; `secondary = none` models
`secondary: null`. -/
def resolveDisplayTitles (plainText : Option String → String)
    (title translatedTitle : Option String) : String × Option String :=
  let original := displayOriginal plainText title
  let translated := plainText translatedTitle
  if translated = "" ∨ translated = original then (original, none)
  else (translated, some original)

end Reader

open RichText Reader Importer Llm

/-- C1.  Executing import_sources twice in succession with the same parsed
content — N candidates whose canonical feed URLs are pairwise distinct and
not yet stored — with no other writes in between yields imported_count = N
and duplicate_count = 0 on the first execution and imported_count = 0 and
duplicate_count = N on the second; the second execution also leaves the
stored Sources unchanged, so execute is idempotent with respect to the set
of stored Sources. -/
theorem importSources_idempotent (canon : String → String)
    (candidates : List ImportCandidate) (st : ImportState)
    (hfresh : ∀ c ∈ candidates, canon c.feed_url ∉ st.sources)
    (hnodup : (candidates.map (fun c => canon c.feed_url)).Nodup) :
    (executeImport canon candidates st).1 = ⟨candidates.length, 0⟩
    ∧ (executeImport canon candidates (executeImport canon candidates st).2).1
        = ⟨0, candidates.length⟩
    ∧ (executeImport canon candidates (executeImport canon candidates st).2).2
        = (executeImport canon candidates st).2 := by
  have h2 := executeImport_all_dup canon candidates (executeImport canon candidates st).2
    (fun c hc => executeImport_mem canon candidates st c hc)
  exact ⟨executeImport_all_fresh canon candidates st hfresh hnodup, h2.1, h2.2⟩

/-- C1 witness: two fresh candidates, imported then reported as duplicates. -/
theorem importSources_idempotent_witness :
    (executeImport id [⟨"Feed A", "http://a/rss"⟩, ⟨"Feed B", "http://b/rss"⟩] ⟨[]⟩).1
        = ⟨2, 0⟩
    ∧ (executeImport id [⟨"Feed A", "http://a/rss"⟩, ⟨"Feed B", "http://b/rss"⟩]
        (executeImport id [⟨"Feed A", "http://a/rss"⟩, ⟨"Feed B", "http://b/rss"⟩]
          ⟨[]⟩).2).1 = ⟨0, 2⟩ := by
  have h := importSources_idempotent id
    [⟨"Feed A", "http://a/rss"⟩, ⟨"Feed B", "http://b/rss"⟩] ⟨[]⟩
    (by decide) (by decide)
  exact ⟨h.1, h.2.1⟩

/-- C2.  While a cached value exists for an (entry, task, fingerprint) key,
running the task issues no outbound LLM request; calling summarize_entry
twice on an entry whose content fingerprint has not changed between the
calls issues exactly one outbound LLM call; and a key whose fingerprint is
not in the cache (in particular a changed fingerprint) is a cache miss that
issues an outbound request. -/
theorem llmCache_single_request (llm : CacheKey → String) (k : CacheKey)
    (st : PipelineState) :
    ((lookupCache st.cache k).isSome = true →
        (runLlmTask llm k st).2.llm_calls = st.llm_calls)
    ∧ (∀ e fp, lookupCache st.cache ⟨e, TaskKind.summarize, fp⟩ = none →
        (summarizeEntry llm e fp (summarizeEntry llm e fp st).2).2.llm_calls
          = st.llm_calls + 1)
    ∧ (lookupCache st.cache k = none →
        (runLlmTask llm k st).2.llm_calls = st.llm_calls + 1) := by
  refine ⟨?_, ?_, ?_⟩
  · intro h
    rcases hx : lookupCache st.cache k with _ | v
    · rw [hx] at h; simp at h
    · simp [runLlmTask, hx]
  · intro e fp h
    simp [summarizeEntry, runLlmTask, h, lookupCache_cons_self]
  · intro h
    simp [runLlmTask, h]

/-- C2 witness: a previously unseen fingerprint, summarized twice, issues
exactly one outbound LLM call. -/
theorem llmCache_single_request_witness :
    (summarizeEntry (fun _ => "a summary") 1 "fp1"
        (summarizeEntry (fun _ => "a summary") 1 "fp1" ⟨[], 0⟩).2).2.llm_calls = 1 := by
  exact (llmCache_single_request (fun _ => "a summary")
    ⟨1, TaskKind.summarize, "fp1"⟩ ⟨[], 0⟩).2.1 1 "fp1" rfl

/-- C3.  Every invocation of sync_source yields a record
{source_id, status, upserted_entries} whose status is one of exactly the
three values updated, not_modified and failed; the worker is a total
function — a fetch or parse failure is reported through status = failed,
never thrown to the caller — and status = failed holds exactly for a failed
fetch or an unparseable body. -/
theorem syncSource_status_trichotomy {β : Type}
    (parse : β → Option (List Sync.IncomingEntry))
    (outcome : Sync.FetchOutcome β) (src : Sync.SourceState) :
    ((Sync.syncWorker parse outcome src).1.status = Sync.SyncStatus.updated
      ∨ (Sync.syncWorker parse outcome src).1.status = Sync.SyncStatus.notModified
      ∨ (Sync.syncWorker parse outcome src).1.status = Sync.SyncStatus.failed)
    ∧ (Sync.syncWorker parse outcome src).1.source_id = src.id
    ∧ ((Sync.syncWorker parse outcome src).1.status = Sync.SyncStatus.failed
        ↔ (∃ k, outcome = Sync.FetchOutcome.failed k)
          ∨ (∃ b v, outcome = Sync.FetchOutcome.modified b v ∧ parse b = none)) := by
  rcases outcome with ⟨b, v⟩ | _ | k
  case modified =>
    rcases hp : parse b with _ | incs <;>
      exact ⟨by simp [Sync.syncWorker, hp], by simp [Sync.syncWorker, hp],
        by simp [Sync.syncWorker, hp]⟩
  case notModified =>
    exact ⟨by simp [Sync.syncWorker], by simp [Sync.syncWorker], by simp [Sync.syncWorker]⟩
  case failed =>
    exact ⟨by simp [Sync.syncWorker], by simp [Sync.syncWorker], by simp [Sync.syncWorker]⟩

/-- C4.  Whenever the fetch of a sync attempt ends in failure after
exhausting its retries, the attempt reports status = failed and increments
the source's failure_count by exactly one, independent of the retry
count. -/
theorem syncFailure_increments_once {β : Type}
    (parse : β → Option (List Sync.IncomingEntry))
    (attempts : Nat → Sync.AttemptResult β) (retry_count : Nat)
    (src : Sync.SourceState)
    (h : ∃ k, Sync.fetchWithRetry attempts 0 retry_count = Sync.FetchOutcome.failed k) :
    (Sync.syncAttempt parse attempts retry_count src).1.status = Sync.SyncStatus.failed
    ∧ (Sync.syncAttempt parse attempts retry_count src).2.failure_count
        = src.failure_count + 1 := by
  obtain ⟨k, hk⟩ := h
  unfold Sync.syncAttempt
  rw [hk]
  exact ⟨rfl, rfl⟩

/-- C4 witness: a source answering HTTP 500 on every attempt, with
retry_count = 2, ends one sync attempt with status failed and its
failure_count raised from 5 to exactly 6, not 8. -/
theorem syncFailure_increments_once_witness :
    (Sync.syncAttempt (fun _ : Unit => none)
        (fun _ => Sync.AttemptResult.httpStatus 500) 2 ⟨7, "etag", 5, []⟩).1.status
      = Sync.SyncStatus.failed
    ∧ (Sync.syncAttempt (fun _ : Unit => none)
        (fun _ => Sync.AttemptResult.httpStatus 500) 2 ⟨7, "etag", 5, []⟩).2.failure_count
      = 6 := by
  exact syncFailure_increments_once (fun _ : Unit => none)
    (fun _ => Sync.AttemptResult.httpStatus 500) 2 ⟨7, "etag", 5, []⟩
    ⟨Sync.FailureKind.http 500, rfl⟩

/-- C6.  A sync merge upsert leaves every previously stored entry's is_read
and is_starred unchanged (each survives, possibly with updated mutable
fields, under the same dedup_key); the update written for a matching
incoming entry takes the incoming title, summary, content and link while
preserving the reader-owned flags; and the reader-facing markEntryRead is
the operation that does set is_read. -/
theorem upsert_frame_reader_flags (entries : List Sync.StoredEntry)
    (incs : List Sync.IncomingEntry) (e : Sync.StoredEntry) (he : e ∈ entries) :
    (∃ e' ∈ Sync.upsertAll entries incs,
        e'.dedup_key = e.dedup_key ∧ e'.is_read = e.is_read ∧ e'.is_starred = e.is_starred)
    ∧ (∀ inc : Sync.IncomingEntry,
        (Sync.updateFromIncoming e inc).title = inc.title
        ∧ (Sync.updateFromIncoming e inc).summary = inc.summary
        ∧ (Sync.updateFromIncoming e inc).content = inc.content
        ∧ (Sync.updateFromIncoming e inc).link = inc.link
        ∧ (Sync.updateFromIncoming e inc).dedup_key = e.dedup_key
        ∧ (Sync.updateFromIncoming e inc).is_read = e.is_read
        ∧ (Sync.updateFromIncoming e inc).is_starred = e.is_starred)
    ∧ (∀ b : Bool, ∀ x ∈ Sync.markEntryRead entries e.dedup_key b,
        x.dedup_key = e.dedup_key → x.is_read = b) := by
  refine ⟨Sync.upsertAll_preserves incs entries e he,
    fun inc => ⟨rfl, rfl, rfl, rfl, rfl, rfl, rfl⟩, ?_⟩
  intro b x hx hkey
  obtain ⟨y, hy, rfl⟩ := List.mem_map.mp hx
  by_cases h : y.dedup_key = e.dedup_key
  · simp [h]
  · simp [h] at hkey

/-- C6 witness: a read, starred entry survives an upsert that rewrites its
title and summary, still read and starred under the same dedup_key. -/
theorem upsert_frame_reader_flags_witness :
    ∃ e' ∈ Sync.upsertAll [⟨"k1", "l", "t", none, none, none, true, true⟩]
        [⟨"k1", "l2", "t2", some "s", none⟩],
      e'.dedup_key = "k1" ∧ e'.is_read = true ∧ e'.is_starred = true := by
  exact (upsert_frame_reader_flags [⟨"k1", "l", "t", none, none, none, true, true⟩]
    [⟨"k1", "l2", "t2", some "s", none⟩]
    ⟨"k1", "l", "t", none, none, none, true, true⟩ (by simp)).1

/-- C5.  dedupKey follows the priority order: the feed-supplied guid when
non-empty, else the canonicalized link when present, else the SHA hash of
title plus published date truncated to day; and it is deterministic — two
parses agreeing on guid, link, title and published day yield the same
key. -/
theorem dedupKey_spec (canon : String → String) (sha : String × Option Nat → String)
    (e : Normalizer.ParsedEntry) :
    (∀ g, e.guid = some g → g ≠ "" → Normalizer.dedupKey canon sha e = g)
    ∧ (e.guid.getD "" = "" → ∀ l, e.link = some l →
        Normalizer.dedupKey canon sha e = canon l)
    ∧ (e.guid.getD "" = "" → e.link = none →
        Normalizer.dedupKey canon sha e = sha (Normalizer.hashInput e))
    ∧ (∀ e' : Normalizer.ParsedEntry, e.guid = e'.guid → e.link = e'.link →
        e.title = e'.title →
        e.published_at.map Normalizer.Timestamp.day
          = e'.published_at.map Normalizer.Timestamp.day →
        Normalizer.dedupKey canon sha e = Normalizer.dedupKey canon sha e') := by
  refine ⟨?_, ?_, ?_, ?_⟩
  · intro g hg hne
    simp [Normalizer.dedupKey, hg, hne]
  · intro hg l hl
    simp [Normalizer.dedupKey, hg, hl]
  · intro hg hl
    simp [Normalizer.dedupKey, hg, hl]
  · intro e' h1 h2 h3 h4
    unfold Normalizer.dedupKey Normalizer.hashInput
    rw [h1, h2, h3, h4]

/-- C5 witness: a non-empty guid wins over a present link. -/
theorem dedupKey_spec_witness :
    Normalizer.dedupKey id (fun p => p.1)
      ⟨some "guid-1", some "http://x", "T", none⟩ = "guid-1" := by
  exact (dedupKey_spec id (fun p => p.1)
    ⟨some "guid-1", some "http://x", "T", none⟩).1 "guid-1" rfl (by decide)

/-- C7.  save_sync_settings returns a normalized SyncSettings in which
interval_secs, max_concurrency, batch_limit, timeout_secs and retry_count
are all positive, persists exactly the normalized value, and never persists
a non-positive input as-is. -/
theorem saveSyncSettings_normalizes (s : Settings.SyncSettings) :
    (0 < (Settings.saveSyncSettings s).1.interval_secs
      ∧ 0 < (Settings.saveSyncSettings s).1.max_concurrency
      ∧ 0 < (Settings.saveSyncSettings s).1.batch_limit
      ∧ 0 < (Settings.saveSyncSettings s).1.timeout_secs
      ∧ 0 < (Settings.saveSyncSettings s).1.retry_count)
    ∧ (Settings.saveSyncSettings s).2 = some (Settings.saveSyncSettings s).1
    ∧ ((s.interval_secs ≤ 0 ∨ s.max_concurrency ≤ 0 ∨ s.batch_limit ≤ 0
        ∨ s.timeout_secs ≤ 0 ∨ s.retry_count ≤ 0) →
        (Settings.saveSyncSettings s).2 ≠ some s) := by
  have hpos : ∀ x : Int, 0 < max 1 x := fun x =>
    lt_of_lt_of_le one_pos (le_max_left 1 x)
  have hne : ∀ x : Int, x ≤ 0 → max 1 x ≠ x := by
    intro x hx
    rw [max_eq_left (by linarith)]
    omega
  refine ⟨⟨hpos _, hpos _, hpos _, hpos _, hpos _⟩, rfl, ?_⟩
  intro h heq
  have heq' : Settings.normalizeSyncSettings s = s := by
    injection heq
  rcases h with h | h | h | h | h
  · exact hne _ h (congrArg Settings.SyncSettings.interval_secs heq')
  · exact hne _ h (congrArg Settings.SyncSettings.max_concurrency heq')
  · exact hne _ h (congrArg Settings.SyncSettings.batch_limit heq')
  · exact hne _ h (congrArg Settings.SyncSettings.timeout_secs heq')
  · exact hne _ h (congrArg Settings.SyncSettings.retry_count heq')

/-- C7 witness: settings with non-positive interval, concurrency and retry
count are not persisted as-is, and the returned concurrency is positive. -/
theorem saveSyncSettings_normalizes_witness :
    (Settings.saveSyncSettings ⟨0, -3, 24, 12, 0⟩).2 ≠ some ⟨0, -3, 24, 12, 0⟩
    ∧ 0 < (Settings.saveSyncSettings ⟨0, -3, 24, 12, 0⟩).1.max_concurrency := by
  have h := saveSyncSettings_normalizes ⟨0, -3, 24, 12, 0⟩
  exact ⟨h.2.2 (Or.inl (by decide)), h.1.2.1⟩

/-- C8.  In every state a scheduler batch can reach, the number of workers
with an in-flight fetch is at most max_concurrency: dispatch is guarded by
the concurrency cap, so no interleaving of dispatches and completions
exceeds it. -/
theorem scheduler_concurrency_cap (maxC n : Nat) (s : Scheduler.BatchState)
    (h : Scheduler.Reachable maxC n s) : s.in_flight ≤ maxC := by
  induction h with
  | init => exact Nat.zero_le _
  | step hr hstep ih =>
      cases hstep with
      | dispatch p f d hp hf => exact hf
      | complete p f d hf => exact le_trans (Nat.sub_le _ _) ih

/-- C8 witness: in a batch of 50 sources with max_concurrency = 6, the state
after two dispatches is reachable and respects the cap. -/
theorem scheduler_concurrency_cap_witness :
    Scheduler.Reachable 6 50 ⟨48, 2, 0⟩
    ∧ (⟨48, 2, 0⟩ : Scheduler.BatchState).in_flight ≤ 6 := by
  have h1 : Scheduler.Reachable 6 50 ⟨49, 1, 0⟩ :=
    Scheduler.Reachable.step Scheduler.Reachable.init
      (Scheduler.SchedStep.dispatch 50 0 0 (by decide) (by decide))
  have h2 : Scheduler.Reachable 6 50 ⟨48, 2, 0⟩ :=
    Scheduler.Reachable.step h1
      (Scheduler.SchedStep.dispatch 49 1 0 (by decide) (by decide))
  exact ⟨h2, scheduler_concurrency_cap 6 50 ⟨48, 2, 0⟩ h2⟩

/-- C10 (amended).  toSafeHtml returns the empty string whenever the input is
null, undefined, or consists only of whitespace; and for every non-blank
input that fails the looksLikeHtml test, the string handed to the sanitizer
is the character-wise escape of the trimmed input — & becomes &amp;, < becomes
&lt;, > becomes &gt;, each newline becomes <br/>, and nothing is escaped
twice — because & is replaced before < and >, and newlines are converted
last, all before sanitizing. -/
theorem toSafeHtml_blank_and_escape (sanitize : List Char → List Char)
    (input : Option (List Char)) :
    (isBlankInput input = true → toSafeHtml sanitize input = [])
    ∧ (∀ s, input = some s → trimChars s ≠ [] →
        looksLikeHtml (trimChars s) = false →
        toSafeHtml sanitize input = sanitize ((trimChars s).flatMap escChar)) := by
  constructor
  · intro hb
    match input with
    | none => rfl
    | some s =>
        have ht : trimChars s = [] := by simpa [isBlankInput] using hb
        by_cases hs : s = []
        · simp [toSafeHtml, hs]
        · simp [toSafeHtml, hs, ht]
  · intro s hs hne hhtml
    subst hs
    have hsne : s ≠ [] := by
      intro h; apply hne; simp [h, trimChars]
    simp [toSafeHtml, hsne, hne, hhtml, escapeText_eq_flatMap]

/-- C10 witness: a concrete non-HTML input with &, <, > and a newline,
escaped as claimed (sanitizer instantiated with the identity). -/
theorem toSafeHtml_blank_and_escape_witness :
    trimChars " a>b&c<d\ne ".data ≠ [] ∧
    toSafeHtml (fun x => x) (some " a>b&c<d\ne ".data) = "a&gt;b&amp;c&lt;d<br/>e".data := by
  refine ⟨by decide, ?_⟩
  rw [(toSafeHtml_blank_and_escape (fun x => x) (some " a>b&c<d\ne ".data)).2
      " a>b&c<d\ne ".data rfl (by decide) (by decide)]
  decide

/-- C10 counterexample: as stated, the claim says toSafeHtml returns the
empty string exactly when the input is null, undefined, or whitespace-only.
The converse direction depends on the external sanitizer: on the HTML branch
the output is whatever DOMPurify.sanitize returns, which is empty for input
consisting of a single script element.  With the sanitizer's behaviour on
that input (the constant empty result), the non-blank input
"<script>alert(1)</script>" is mapped to the empty string. -/
theorem toSafeHtml_empty_iff_refuted :
    ¬ (∀ (sanitize : List Char → List Char) (input : Option (List Char)),
        toSafeHtml sanitize input = [] ↔ isBlankInput input = true) := by
  intro h
  have hmp := (h (fun _ => []) (some "<script>alert(1)</script>".data)).mp (by decide)
  exact absurd hmp (by decide)

/-- C9.  resolveDisplayTitles swaps the translated title into the primary
position exactly when the plain-texted translation is non-empty and differs
from the rendered original title (the plain-texted title, with the
"Untitled" fallback applied when that is empty); in every other case the
primary is the rendered original title and the secondary is null. -/
theorem resolveDisplayTitles_spec (plainText : Option String → String)
    (title translatedTitle : Option String) :
    (resolveDisplayTitles plainText title translatedTitle
        = (plainText translatedTitle, some (displayOriginal plainText title))
      ↔ plainText translatedTitle ≠ ""
        ∧ plainText translatedTitle ≠ displayOriginal plainText title)
    ∧ ((plainText translatedTitle = ""
        ∨ plainText translatedTitle = displayOriginal plainText title) →
        resolveDisplayTitles plainText title translatedTitle
          = (displayOriginal plainText title, none))
    ∧ (plainText title = "" → displayOriginal plainText title = "Untitled") := by
  refine ⟨?_, ?_, ?_⟩
  · by_cases h : plainText translatedTitle = ""
      ∨ plainText translatedTitle = displayOriginal plainText title
    · simp only [resolveDisplayTitles, if_pos h]
      constructor
      · intro heq
        exact absurd (congrArg Prod.snd heq) (by simp)
      · intro ⟨h1, h2⟩
        exact absurd h (by tauto)
    · push_neg at h
      simp only [resolveDisplayTitles, if_neg (by tauto :
        ¬ (plainText translatedTitle = ""
          ∨ plainText translatedTitle = displayOriginal plainText title))]
      exact ⟨fun _ => h, fun _ => by trivial⟩
  · intro h
    simp only [resolveDisplayTitles, if_pos h]
  · intro h
    simp [displayOriginal, h]

/-- C9 witness: with a concrete plain-text collaborator, a distinct non-empty
translation is promoted to primary and the original becomes secondary. -/
theorem resolveDisplayTitles_witness :
    resolveDisplayTitles (fun o => o.getD "") (some "Hello") (some "Bonjour")
      = ("Bonjour", some "Hello") := by
  have h := (resolveDisplayTitles_spec (fun o => o.getD "")
      (some "Hello") (some "Bonjour")).1.mpr ⟨by decide, by decide⟩
  simpa [displayOriginal] using h

end Rssr
